import Mathlib

/-!
Shallow embedding of the urlMonitor engine (src/src/entity/monitor.go and the
entity types LogEntry, DowntimeEntry, Monitor).  Go time values are modelled as
integers (nanoseconds); the zero time.Time is 0, so time.Time.IsZero becomes
an equality test with 0.  Go time.Duration is an integer count of nanoseconds.
The Duration field of DowntimeEntry is a string rendering of a time.Duration in
Go; here it is kept as the underlying integer duration.  Go maps are modelled
as association lists inserted at the front (map order is immaterial and keys
are always fresh at insertion); channels carry no data that matters, so the
stopChannels map is modelled by its key list.
-/

/-- One nanosecond count of the Go constant time.Second. -/
def second : Int := 1000000000

/-- Monitor from src/unnamed/part_000 (entity/monitor type): a URL and its polling interval. -/
structure Monitor where
  url : String
  interval : Int
  deriving Repr, DecidableEq

/-- LogEntry from src/unnamed/part_001: one probe outcome. -/
structure LogEntry where
  timestamp : Int
  url : String
  statusCode : Int
  responseTime : Int
  success : Bool
  error : String
  deriving Repr, DecidableEq

/-- DowntimeEntry from src/unnamed/part_001: one downtime interval. -/
structure DowntimeEntry where
  url : String
  startTime : Int
  endTime : Int
  duration : Int
  statusCode : Int
  errorDetail : String
  deriving Repr, DecidableEq

/-- The mutable state of UptimeMonitor (the http client and mutex carry no modelled state). -/
structure UptimeMonitor where
  monitors : List (String × Monitor)
  logs : List LogEntry
  downtimes : List DowntimeEntry
  stopChannels : List String
  deriving Repr, DecidableEq

/-- NewUptimeMonitor: empty maps and slices. -/
def NewUptimeMonitor : UptimeMonitor :=
  { monitors := [], logs := [], downtimes := [], stopChannels := [] }

/-- Association-list lookup modelling Go map indexing um.monitors[url]. -/
def lookupMonitor : List (String × Monitor) → String → Option Monitor
  | [], _ => none
  | (k, v) :: rest, u => if k = u then some v else lookupMonitor rest u

/-- Association-list key removal modelling Go delete(um.monitors, url). -/
def eraseKey (l : List (String × Monitor)) (u : String) : List (String × Monitor) :=
  l.filter (fun p => decide (p.1 ≠ u))

/-- AddMonitor: normalize a zero interval to 30s, reject a duplicate key, otherwise
install the registry entry and the stop channel (the spawned goroutine is not state). -/
def AddMonitor (um : UptimeMonitor) (url : String) (interval : Int) :
    UptimeMonitor × Option String :=
  let interval := if interval = 0 then 30 * second else interval
  if (lookupMonitor um.monitors url).isSome then
    (um, some ("URL " ++ url ++ " is already being monitored"))
  else
    ({ um with
        monitors := (url, { url := url, interval := interval }) :: um.monitors,
        stopChannels := url :: um.stopChannels },
     none)

/-- RemoveMonitor: membership is tested on stopChannels; on success both the stop
channel and the registry entry are deleted. -/
def RemoveMonitor (um : UptimeMonitor) (url : String) :
    UptimeMonitor × Option String :=
  if url ∈ um.stopChannels then
    ({ um with
        stopChannels := um.stopChannels.filter (fun u => decide (u ≠ url)),
        monitors := eraseKey um.monitors url },
     none)
  else
    (um, some ("URL " ++ url ++ " is not being monitored"))

/-- getLastDowntime: scan downtimes from the newest entry backward for the first
entry of this url.  The backward for-loop is the first match of the reversed list. -/
def getLastDowntime (downtimes : List DowntimeEntry) (url : String) : Option DowntimeEntry :=
  downtimes.reverse.find? (fun d => decide (d.url = url))

/-- The open DowntimeEntry appended by handleFailure, seeded from the log entry
(EndTime and Duration keep their Go zero values). -/
def mkDowntime (entry : LogEntry) : DowntimeEntry :=
  { url := entry.url, startTime := entry.timestamp, endTime := 0, duration := 0,
    statusCode := entry.statusCode, errorDetail := entry.error }

/-- handleFailure: append the entry to the log; if the last downtime of this url
is absent or closed, append a fresh open downtime. -/
def handleFailure (um : UptimeMonitor) (entry : LogEntry) : UptimeMonitor :=
  let needNew : Bool :=
    match getLastDowntime um.downtimes entry.url with
    | none => true
    | some d => decide (d.endTime ≠ 0)
  { um with
    logs := um.logs ++ [entry],
    downtimes :=
      if needNew then um.downtimes ++ [mkDowntime entry] else um.downtimes }

/-- Closing a downtime record: EndTime set to now, Duration computed as end minus start. -/
def closeDowntime (d : DowntimeEntry) (now : Int) : DowntimeEntry :=
  { d with endTime := now, duration := now - d.startTime }

/-- Walk a list (the reversed downtime slice) up to the first entry of this url;
if that entry is open, close it; entries past the first match are untouched.
This is exactly the effect of handleSuccess writing through the pointer
returned by getLastDowntime. -/
def closeLastFrom (url : String) (now : Int) : List DowntimeEntry → List DowntimeEntry
  | [] => []
  | d :: ds =>
    if d.url = url then
      (if d.endTime = 0 then closeDowntime d now else d) :: ds
    else
      d :: closeLastFrom url now ds

/-- handleSuccess: if the last downtime of this url exists and is open, close it in place. -/
def handleSuccess (um : UptimeMonitor) (url : String) (now : Int) : UptimeMonitor :=
  { um with downtimes := (closeLastFrom url now um.downtimes.reverse).reverse }

/-- The outcome of the HTTP GET inside checkURL: a transport-level error carrying
the text of err.Error(), or a completed response carrying its status code. -/
inductive ProbeResult where
  | transportError (msg : String)
  | completed (statusCode : Int)
  deriving Repr, DecidableEq

/-- checkURL: build the log entry; on transport error hand it (success false,
status code left at its zero value, error text set) to handleFailure, which
performs the only append.  On a completed response set the status code and the
range-based success flag, append the entry, then dispatch to handleFailure or
handleSuccess.  now is the entry timestamp, closeNow the time.Now() read inside
handleSuccess, responseTime the measured latency in milliseconds. -/
def checkURL (um : UptimeMonitor) (url : String) (res : ProbeResult)
    (now closeNow responseTime : Int) : UptimeMonitor :=
  let entry : LogEntry :=
    { timestamp := now, url := url, statusCode := 0,
      responseTime := responseTime, success := false, error := "" }
  match res with
  | .transportError msg =>
      handleFailure um { entry with success := false, error := msg }
  | .completed code =>
      let entry := { entry with
        statusCode := code,
        success := decide (200 ≤ code) && decide (code < 300) }
      let um1 := { um with logs := um.logs ++ [entry] }
      if entry.success then handleSuccess um1 url closeNow
      else handleFailure um1 entry

/-- GetLogs: forward scan of the log accumulating entries whose URL matches. -/
def GetLogs (um : UptimeMonitor) (url : String) : List LogEntry :=
  um.logs.foldl (fun acc log => if log.url = url then acc ++ [log] else acc) []

/-- GetDowntimes: forward scan of the downtimes accumulating entries whose URL matches. -/
def GetDowntimes (um : UptimeMonitor) (url : String) : List DowntimeEntry :=
  um.downtimes.foldl (fun acc d => if d.url = url then acc ++ [d] else acc) []

/-- HandleAddMonitor, engine-facing part: the decoded request interval (an integer
count of seconds) is multiplied by time.Second and passed to AddMonitor with no
further validation.  Method and body-decoding checks reject requests without
touching the engine and are not modelled. -/
def HandleAddMonitor (um : UptimeMonitor) (reqUrl : String) (reqInterval : Int) :
    UptimeMonitor × Option String :=
  AddMonitor um reqUrl (reqInterval * second)

/-- A processed probe outcome as seen by the downtime bookkeeping: a handleFailure
call with its log entry, or a handleSuccess call with its url and close time. -/
inductive OutcomeOp where
  | failure (entry : LogEntry)
  | success (url : String) (now : Int)
  deriving Repr, DecidableEq

def applyOutcome (um : UptimeMonitor) : OutcomeOp → UptimeMonitor
  | .failure entry => handleFailure um entry
  | .success url now => handleSuccess um url now

def applyOutcomes (um : UptimeMonitor) (ops : List OutcomeOp) : UptimeMonitor :=
  ops.foldl applyOutcome um

/-- A registry operation: AddMonitor or RemoveMonitor (return values dropped). -/
inductive RegOp where
  | add (url : String) (interval : Int)
  | remove (url : String)
  deriving Repr, DecidableEq

def applyRegOp (um : UptimeMonitor) : RegOp → UptimeMonitor
  | .add url i => (AddMonitor um url i).1
  | .remove url => (RemoveMonitor um url).1

def applyRegOps (um : UptimeMonitor) (ops : List RegOp) : UptimeMonitor :=
  ops.foldl applyRegOp um

/-- Number of open downtime records of a url. -/
def openCount (dts : List DowntimeEntry) (url : String) : Nat :=
  (dts.filter (fun d => decide (d.endTime = 0 ∧ d.url = url))).length

/-- The monitors map and the stopChannels map have the same key set. -/
def keysAgree (um : UptimeMonitor) : Prop :=
  ∀ u : String, (lookupMonitor um.monitors u).isSome ↔ u ∈ um.stopChannels

/-- Registry invariant: monitors and stopChannels have the same key set and the
stop-channel key list is duplicate free (it models a Go map). -/
def regInv (um : UptimeMonitor) : Prop :=
  keysAgree um ∧ um.stopChannels.Nodup

/-- All entries of a list but possibly the first are closed.  Applied to the
reversed, url-filtered downtime slice this says: only the newest downtime
record of a url may be open. -/
def tailClosed : List DowntimeEntry → Prop
  | [] => True
  | _ :: ds => ∀ e ∈ ds, e.endTime ≠ 0

/-- Downtime-state invariant: for every url, only the newest record may be open. -/
def downInv (dts : List DowntimeEntry) : Prop :=
  ∀ u : String, tailClosed (dts.reverse.filter (fun d => decide (d.url = u)))

/-- Close the head of a list if it is open; the abstract effect of closeLastFrom
on the url-filtered reversed slice. -/
def closeHead (now : Int) : List DowntimeEntry → List DowntimeEntry
  | [] => []
  | d :: ds => (if d.endTime = 0 then closeDowntime d now else d) :: ds

/-- The 500, 500, 200 probe scenario of the spec, run against one target from a
fresh engine (timestamps 1, 2, 3; latency 5ms). -/
def scenarioState : UptimeMonitor :=
  checkURL (checkURL (checkURL NewUptimeMonitor "u" (.completed 500) 1 1 5)
    "u" (.completed 500) 2 2 5) "u" (.completed 200) 3 3 5

/-! ## Theorems -/

/-- The accumulate-on-match foldl of GetLogs and GetDowntimes is a filter. -/
theorem foldl_filter {α : Type} (p : α → Prop) [DecidablePred p] (l : List α) :
    ∀ acc : List α,
      l.foldl (fun a x => if p x then a ++ [x] else a) acc
        = acc ++ l.filter (fun x => decide (p x)) := by
  induction l with
  | nil => intro acc; simp
  | cons x l ih =>
    intro acc
    by_cases h : p x
    · simp [List.foldl_cons, h, ih, List.filter_cons]
    · simp [List.foldl_cons, h, ih, List.filter_cons]

/-- C8: GetLogs returns exactly the log entries whose URL equals the query url,
in append order, and GetDowntimes returns exactly the downtime records whose
URL equals the query url, in creation order (open records are stored, hence
returned, with endTime 0).  Both are pure functions of the state, so neither
mutates anything. -/
theorem c8_query_filters (um : UptimeMonitor) (url : String) :
    GetLogs um url = um.logs.filter (fun l => decide (l.url = url))
    ∧ GetDowntimes um url = um.downtimes.filter (fun d => decide (d.url = url)) := by
  constructor
  · simpa [GetLogs] using foldl_filter (fun l : LogEntry => l.url = url) um.logs []
  · simpa [GetDowntimes] using foldl_filter (fun d : DowntimeEntry => d.url = url) um.downtimes []

/-- C6: AddMonitor errors exactly on a duplicate url; the error case changes no
state; the success case installs a registry entry whose interval is 30s when
the given interval is zero and the given interval otherwise. -/
theorem c6_addMonitor (um : UptimeMonitor) (url : String) (interval : Int) :
    ((AddMonitor um url interval).2.isSome ↔ (lookupMonitor um.monitors url).isSome)
    ∧ ((lookupMonitor um.monitors url).isSome → (AddMonitor um url interval).1 = um)
    ∧ (lookupMonitor um.monitors url = none →
        lookupMonitor (AddMonitor um url interval).1.monitors url =
          some { url := url, interval := if interval = 0 then 30 * second else interval }) := by
  by_cases h : (lookupMonitor um.monitors url).isSome
  · refine ⟨by simp [AddMonitor, h], fun _ => by simp [AddMonitor, h], fun hn => ?_⟩
    rw [hn] at h; simp at h
  · refine ⟨by simp [AddMonitor, h], fun hs => absurd hs h, fun _ => ?_⟩
    simp [AddMonitor, h, lookupMonitor]

/-- Witness for C6 at a fresh engine: adding "u" with interval 0 registers "u"
with the 30-second default. -/
theorem c6_addMonitor_witness :
    lookupMonitor (AddMonitor NewUptimeMonitor "u" 0).1.monitors "u" =
      some { url := "u", interval := 30 * second } := by
  simpa using (c6_addMonitor NewUptimeMonitor "u" 0).2.2 rfl

/-- C1 (code evaluation at the failing input): a target probed with completed
responses 500, 500, 200 ends with FIVE log entries (flags false, false, false,
false, true), not three — checkURL appends a completed non-2xx entry and
handleFailure appends the same entry again — while the downtime count is 1 as
specified. -/
theorem c1_scenario_double_log :
    (GetLogs scenarioState "u").length = 5
    ∧ (GetLogs scenarioState "u").map LogEntry.success = [false, false, false, false, true]
    ∧ (GetDowntimes scenarioState "u").length = 1 := by
  decide

/-- C9 counterexample: an add request with interval -5 reaches the engine and
registers a target whose polling interval is the negative duration -5s, so
malformed boundary input is NOT rejected before reaching the engine. -/
theorem c9_counterexample :
    lookupMonitor (HandleAddMonitor NewUptimeMonitor "http://a.test" (-5)).1.monitors
        "http://a.test" = some { url := "http://a.test", interval := -5 * second }
    ∧ (-5 : Int) * second < 0 := by
  decide

/-- C9 amended: the handler passes the requested interval, converted to seconds,
to the engine with no validation; only a zero request interval is normalized
(to 30s), so a request with a negative interval registers a target whose
polling interval is negative. -/
theorem c9_amended_no_validation (um : UptimeMonitor) (url : String) (reqInterval : Int)
    (h : lookupMonitor um.monitors url = none) :
    lookupMonitor (HandleAddMonitor um url reqInterval).1.monitors url =
      some { url := url,
             interval := if reqInterval = 0 then 30 * second else reqInterval * second }
    ∧ (reqInterval < 0 → (if reqInterval = 0 then 30 * second else reqInterval * second) < 0) := by
  have hsec : (0 : Int) < second := by norm_num [second]
  have h1 : (lookupMonitor um.monitors url).isSome = false := by simp [h]
  constructor
  · by_cases h0 : reqInterval = 0
    · simp [HandleAddMonitor, AddMonitor, h1, h0, lookupMonitor]
    · have hne : reqInterval * second ≠ 0 := mul_ne_zero h0 (by norm_num [second])
      simp [HandleAddMonitor, AddMonitor, h1, hne, h0, lookupMonitor]
  · intro hneg
    have h0 : reqInterval ≠ 0 := ne_of_lt hneg
    simpa [h0] using mul_neg_of_neg_of_pos hneg hsec

/-- Witness for the amended C9: on a fresh engine, an add request with interval
-5 registers the target with interval -5s. -/
theorem c9_amended_witness :
    lookupMonitor (HandleAddMonitor NewUptimeMonitor "u" (-5)).1.monitors "u" =
      some { url := "u", interval := -5 * second } := by
  simpa using (c9_amended_no_validation NewUptimeMonitor "u" (-5) rfl).1

/-- C4: handleFailure leaves the downtime list unchanged when the last downtime
of the url of the entry is open, and appends exactly one new open record seeded
from the timestamp, status code and error of the entry when there is no record
or the last one is closed. -/
theorem c4_handleFailure (um : UptimeMonitor) (entry : LogEntry) :
    (∀ d, getLastDowntime um.downtimes entry.url = some d → d.endTime = 0 →
        (handleFailure um entry).downtimes = um.downtimes)
    ∧ (getLastDowntime um.downtimes entry.url = none →
        (handleFailure um entry).downtimes =
          um.downtimes ++ [{ url := entry.url, startTime := entry.timestamp, endTime := 0,
                             duration := 0, statusCode := entry.statusCode,
                             errorDetail := entry.error }])
    ∧ (∀ d, getLastDowntime um.downtimes entry.url = some d → d.endTime ≠ 0 →
        (handleFailure um entry).downtimes =
          um.downtimes ++ [{ url := entry.url, startTime := entry.timestamp, endTime := 0,
                             duration := 0, statusCode := entry.statusCode,
                             errorDetail := entry.error }]) := by
  refine ⟨fun d hd hopen => ?_, fun hn => ?_, fun d hd hclosed => ?_⟩
  · simp [handleFailure, hd, hopen]
  · simp [handleFailure, hn, mkDowntime]
  · simp [handleFailure, hd, hclosed, mkDowntime]

/-- Witness for C4 at a fresh engine: a failure entry with no prior downtime
appends one open record seeded from the entry. -/
theorem c4_handleFailure_witness :
    (handleFailure NewUptimeMonitor
        { timestamp := 1, url := "u", statusCode := 500, responseTime := 5,
          success := false, error := "" }).downtimes =
      [{ url := "u", startTime := 1, endTime := 0, duration := 0, statusCode := 500,
         errorDetail := "" }] := by
  simpa using (c4_handleFailure NewUptimeMonitor
    { timestamp := 1, url := "u", statusCode := 500, responseTime := 5,
      success := false, error := "" }).2.1 rfl

/-- closeLastFrom is the identity on a list holding no entry of the url. -/
theorem closeLastFrom_of_no_match (url : String) (now : Int) :
    ∀ l : List DowntimeEntry, (∀ e ∈ l, e.url ≠ url) → closeLastFrom url now l = l := by
  intro l
  induction l with
  | nil => intro _; rfl
  | cons d ds ih =>
    intro h
    have hd : d.url ≠ url := h d (List.mem_cons_self d ds)
    simp [closeLastFrom, hd, ih fun e he => h e (List.mem_cons_of_mem d he)]

/-- closeLastFrom is the identity when the first matching entry is closed. -/
theorem closeLastFrom_of_find_closed (url : String) (now : Int) :
    ∀ (l : List DowntimeEntry) (d : DowntimeEntry),
      l.find? (fun e => decide (e.url = url)) = some d → d.endTime ≠ 0 →
      closeLastFrom url now l = l := by
  intro l
  induction l with
  | nil => intro d hd; simp at hd
  | cons e es ih =>
    intro d hd hcl
    by_cases he : e.url = url
    · rw [List.find?_cons_of_pos _ (by simpa using he)] at hd
      have : e = d := by injection hd
      subst this
      simp [closeLastFrom, he, hcl]
    · rw [List.find?_cons_of_neg _ (by simpa using he)] at hd
      simp [closeLastFrom, he, ih d hd hcl]

/-- closeLastFrom on a list whose first matching entry is d updates exactly d. -/
theorem closeLastFrom_decompose (url : String) (now : Int) :
    ∀ (a : List DowntimeEntry) (d : DowntimeEntry) (b : List DowntimeEntry),
      (∀ e ∈ a, e.url ≠ url) → d.url = url →
      closeLastFrom url now (a ++ d :: b) =
        a ++ (if d.endTime = 0 then closeDowntime d now else d) :: b := by
  intro a
  induction a with
  | nil => intro d b _ hd; simp [closeLastFrom, hd]
  | cons e es ih =>
    intro d b ha hd
    have he : e.url ≠ url := ha e (List.mem_cons_self e es)
    simp [closeLastFrom, he, ih d b (fun x hx => ha x (List.mem_cons_of_mem e hx)) hd]

/-- C3: handleSuccess never touches logs, registry or stop channels; when the
url has no downtime record, or its most recent record is closed, the downtime
list is unchanged; when its most recent record d is open (d is the last record
of the url, so every later record belongs to other urls), exactly d is replaced
by its closed version — end timestamp set to now, duration computed as
now minus start — and every other record, of this url and of all others, is
untouched. -/
theorem c3_handleSuccess (um : UptimeMonitor) (url : String) (now : Int) :
    ((handleSuccess um url now).logs = um.logs
      ∧ (handleSuccess um url now).monitors = um.monitors
      ∧ (handleSuccess um url now).stopChannels = um.stopChannels)
    ∧ (getLastDowntime um.downtimes url = none →
        (handleSuccess um url now).downtimes = um.downtimes)
    ∧ (∀ d, getLastDowntime um.downtimes url = some d → d.endTime ≠ 0 →
        (handleSuccess um url now).downtimes = um.downtimes)
    ∧ (∀ (l₁ : List DowntimeEntry) (d : DowntimeEntry) (l₂ : List DowntimeEntry),
        um.downtimes = l₁ ++ d :: l₂ → d.url = url → d.endTime = 0 →
        (∀ e ∈ l₂, e.url ≠ url) →
        (handleSuccess um url now).downtimes =
          l₁ ++ { d with endTime := now, duration := now - d.startTime } :: l₂) := by
  refine ⟨⟨rfl, rfl, rfl⟩, fun hn => ?_, fun d hd hcl => ?_, fun l₁ d l₂ hsplit hurl hopen hrest => ?_⟩
  · have hno : ∀ e ∈ um.downtimes.reverse, e.url ≠ url := by
      intro e he
      have := List.find?_eq_none.mp hn e he
      simpa using this
    simp [handleSuccess, closeLastFrom_of_no_match url now _ hno]
  · simp [handleSuccess, closeLastFrom_of_find_closed url now _ d hd hcl]
  · have hrev : um.downtimes.reverse = l₂.reverse ++ d :: l₁.reverse := by
      simp [hsplit]
    have hno : ∀ e ∈ l₂.reverse, e.url ≠ url := by
      intro e he; exact hrest e (List.mem_reverse.mp he)
    rw [handleSuccess, hrev, closeLastFrom_decompose url now _ d _ hno hurl]
    simp [hopen, closeDowntime]

/-- Witness for C3: a success at time 3 against a single open downtime record
started at time 1 closes it with duration 2. -/
theorem c3_handleSuccess_witness :
    (handleSuccess
        { monitors := [], logs := [],
          downtimes := [{ url := "u", startTime := 1, endTime := 0, duration := 0,
                          statusCode := 500, errorDetail := "" }],
          stopChannels := [] } "u" 3).downtimes =
      [{ url := "u", startTime := 1, endTime := 3, duration := 2, statusCode := 500,
         errorDetail := "" }] := by
  simpa using (c3_handleSuccess
    { monitors := [], logs := [],
      downtimes := [{ url := "u", startTime := 1, endTime := 0, duration := 0,
                      statusCode := 500, errorDetail := "" }],
      stopChannels := [] } "u" 3).2.2.2
    [] { url := "u", startTime := 1, endTime := 0, duration := 0,
         statusCode := 500, errorDetail := "" } []
    rfl rfl rfl (by simp)

/-- Lookup after deleting a key: the deleted key is gone, all others unaffected. -/
theorem lookupMonitor_eraseKey (l : List (String × Monitor)) (u k : String) :
    lookupMonitor (eraseKey l u) k = if k = u then none else lookupMonitor l k := by
  induction l with
  | nil => by_cases hk : k = u <;> simp [eraseKey, lookupMonitor, hk]
  | cons p rest ih =>
    obtain ⟨pk, pv⟩ := p
    by_cases hpu : pk = u <;> by_cases hpk : pk = k <;> by_cases hk : k = u <;>
      simp_all [eraseKey, List.filter_cons, lookupMonitor]

/-- One registry operation preserves the registry invariant. -/
theorem regInv_applyRegOp (um : UptimeMonitor) (op : RegOp) (h : regInv um) :
    regInv (applyRegOp um op) := by
  obtain ⟨hk, hnd⟩ := h
  cases op with
  | add url i =>
    by_cases hx : (lookupMonitor um.monitors url).isSome
    · simpa [applyRegOp, AddMonitor, hx] using ⟨hk, hnd⟩
    · have hnot : url ∉ um.stopChannels := fun hmem => hx ((hk url).mpr hmem)
      refine ⟨fun u => ?_, ?_⟩
      · by_cases hu : url = u
        · subst hu
          simp [applyRegOp, AddMonitor, hx, lookupMonitor]
        · have hu2 : ¬ u = url := fun he => hu he.symm
          simp [applyRegOp, AddMonitor, hx, lookupMonitor, hu, hu2, hk u]
      · simpa [applyRegOp, AddMonitor, hx] using ⟨hnot, hnd⟩
  | remove url =>
    by_cases hmem : url ∈ um.stopChannels
    · refine ⟨fun u => ?_, ?_⟩
      · by_cases hu : u = url
        · subst hu
          simp [applyRegOp, RemoveMonitor, hmem, lookupMonitor_eraseKey, List.mem_filter]
        · have hu2 : ¬ url = u := fun he => hu he.symm
          simp [applyRegOp, RemoveMonitor, hmem, lookupMonitor_eraseKey, hu, hu2,
            List.mem_filter, hk u]
      · simpa [applyRegOp, RemoveMonitor, hmem] using hnd.filter _
    · simpa [applyRegOp, RemoveMonitor, hmem] using ⟨hk, hnd⟩

/-- Any sequence of registry operations preserves the registry invariant. -/
theorem regInv_applyRegOps :
    ∀ (ops : List RegOp) (um : UptimeMonitor), regInv um → regInv (applyRegOps um ops)
  | [], _, h => h
  | op :: ops, um, h => regInv_applyRegOps ops _ (regInv_applyRegOp um op h)

/-- C10: after any sequence of AddMonitor and RemoveMonitor calls on a fresh
engine, the monitors map and the stopChannels map have exactly the same key set
(and the stop-channel key list has no duplicate, so every registered target has
exactly one cancellation handle); hence the stopChannels membership test of
RemoveMonitor agrees with membership in monitors. -/
theorem c10_registry_keys (ops : List RegOp) :
    keysAgree (applyRegOps NewUptimeMonitor ops)
    ∧ (applyRegOps NewUptimeMonitor ops).stopChannels.Nodup :=
  regInv_applyRegOps ops NewUptimeMonitor
    ⟨fun u => by simp [NewUptimeMonitor, lookupMonitor], by simp [NewUptimeMonitor]⟩

/-- C7: under the registry key-set invariant, RemoveMonitor errors exactly when
the url is not a registered key; the error case mutates nothing; the success
case removes the registry entry and the cancellation handle and leaves logs and
downtimes (open records included) untouched. -/
theorem c7_removeMonitor (um : UptimeMonitor) (url : String) (h : keysAgree um) :
    ((RemoveMonitor um url).2.isSome ↔ lookupMonitor um.monitors url = none)
    ∧ (lookupMonitor um.monitors url = none → (RemoveMonitor um url).1 = um)
    ∧ ((lookupMonitor um.monitors url).isSome →
        lookupMonitor (RemoveMonitor um url).1.monitors url = none
        ∧ url ∉ (RemoveMonitor um url).1.stopChannels
        ∧ (RemoveMonitor um url).1.logs = um.logs
        ∧ (RemoveMonitor um url).1.downtimes = um.downtimes) := by
  by_cases hmem : url ∈ um.stopChannels
  · have hsome : (lookupMonitor um.monitors url).isSome := (h url).mpr hmem
    refine ⟨?_, fun hn => ?_, fun _ =>
      ⟨?_, ?_, by simp [RemoveMonitor, hmem], by simp [RemoveMonitor, hmem]⟩⟩
    · simp only [RemoveMonitor, hmem, if_pos]
      simpa using Option.isSome_iff_ne_none.mp hsome
    · rw [hn] at hsome; simp at hsome
    · simp [RemoveMonitor, hmem, lookupMonitor_eraseKey]
    · simp [RemoveMonitor, hmem, List.mem_filter]
  · have hnone : lookupMonitor um.monitors url = none := by
      rcases ho : lookupMonitor um.monitors url with _ | v
      · rfl
      · exact absurd ((h url).mp (by simp [ho])) hmem
    refine ⟨by simp [RemoveMonitor, hmem, hnone], fun _ => by simp [RemoveMonitor, hmem],
      fun hs => absurd hs (by simp [hnone])⟩

/-- Witness for C7 on a fresh engine: removing an unregistered url reports the
error exactly when the url is absent from the registry. -/
theorem c7_removeMonitor_witness :
    (RemoveMonitor NewUptimeMonitor "u").2.isSome ↔
      lookupMonitor NewUptimeMonitor.monitors "u" = none :=
  (c7_removeMonitor NewUptimeMonitor "u"
    (fun u => by simp [NewUptimeMonitor, lookupMonitor])).1

/-- C5: a transport failure is recorded as one entry with status code 0 (the Go
zero value), success false and the error text (non-empty whenever the error
text is); a completed response is recorded with the actual status code, an
empty error text, and a success flag equal to the status code lying in
[200, 300) — every entry appended by checkURL for a completed response has
exactly these fields. -/
theorem c5_classification (um : UptimeMonitor) (url msg : String)
    (code now closeNow rt : Int) :
    ((checkURL um url (.transportError msg) now closeNow rt).logs =
        um.logs ++ [{ timestamp := now, url := url, statusCode := 0,
                      responseTime := rt, success := false, error := msg }])
    ∧ (msg ≠ "" →
        ∀ e ∈ ((checkURL um url (.transportError msg) now closeNow rt).logs).drop
            um.logs.length,
          e.statusCode = 0 ∧ e.success = false ∧ e.error ≠ "")
    ∧ (∀ e ∈ ((checkURL um url (.completed code) now closeNow rt).logs).drop
          um.logs.length,
        e.statusCode = code ∧ e.error = ""
        ∧ (e.success = true ↔ (200 ≤ code ∧ code < 300))) := by
  have hT : (checkURL um url (.transportError msg) now closeNow rt).logs =
      um.logs ++ [{ timestamp := now, url := url, statusCode := 0,
                    responseTime := rt, success := false, error := msg }] := by
    simp [checkURL, handleFailure]
  refine ⟨hT, fun hm e he => ?_, fun e he => ?_⟩
  · rw [hT, List.drop_left] at he
    simp only [List.mem_singleton] at he
    subst he
    exact ⟨rfl, rfl, hm⟩
  · by_cases hs : (decide (200 ≤ code) && decide (code < 300)) = true
    · have hL : (checkURL um url (.completed code) now closeNow rt).logs =
          um.logs ++ [{ timestamp := now, url := url, statusCode := code,
                        responseTime := rt,
                        success := decide (200 ≤ code) && decide (code < 300),
                        error := "" }] := by
        simp [checkURL, hs, handleSuccess]
      rw [hL, List.drop_left] at he
      simp only [List.mem_singleton] at he
      subst he
      refine ⟨rfl, rfl, ?_⟩
      simp [Bool.and_eq_true, decide_eq_true_eq]
    · have hL : (checkURL um url (.completed code) now closeNow rt).logs =
          um.logs ++ [{ timestamp := now, url := url, statusCode := code,
                        responseTime := rt,
                        success := decide (200 ≤ code) && decide (code < 300),
                        error := "" },
                      { timestamp := now, url := url, statusCode := code,
                        responseTime := rt,
                        success := decide (200 ≤ code) && decide (code < 300),
                        error := "" }] := by
        simp [checkURL, hs, handleFailure]
      rw [hL, List.drop_left] at he
      rcases List.mem_cons.mp he with rfl | he2
      · refine ⟨rfl, rfl, ?_⟩
        simp [Bool.and_eq_true, decide_eq_true_eq]
      · simp only [List.mem_singleton] at he2
        subst he2
        refine ⟨rfl, rfl, ?_⟩
        simp [Bool.and_eq_true, decide_eq_true_eq]

/-- Witness for C5 at a fresh engine: a timed-out probe of "u" yields exactly
one entry with status code 0, success false and a non-empty error text. -/
theorem c5_classification_witness :
    ({ timestamp := 1, url := "u", statusCode := 0, responseTime := 5,
       success := false, error := "boom" } : LogEntry).statusCode = 0
    ∧ ({ timestamp := 1, url := "u", statusCode := 0, responseTime := 5,
         success := false, error := "boom" } : LogEntry).success = false
    ∧ ({ timestamp := 1, url := "u", statusCode := 0, responseTime := 5,
         success := false, error := "boom" } : LogEntry).error ≠ "" :=
  (c5_classification NewUptimeMonitor "u" "boom" 500 1 1 5).2.1 (by decide) _ (by decide)

/-- find? is the head of the filtered list. -/
theorem find?_eq_head?_filter {α : Type} (p : α → Bool) :
    ∀ l : List α, l.find? p = (l.filter p).head? := by
  intro l
  induction l with
  | nil => rfl
  | cons x l ih =>
    by_cases h : p x = true
    · rw [List.find?_cons_of_pos _ h]
      simp [List.filter_cons, h]
    · rw [List.find?_cons_of_neg _ h, List.filter_cons_of_neg h]
      exact ih

/-- If the head of a tail-closed list is closed, every entry is closed. -/
theorem all_closed_of_head_closed (l : List DowntimeEntry) (d : DowntimeEntry)
    (hh : l.head? = some d) (hd : d.endTime ≠ 0) (ht : tailClosed l) :
    ∀ e ∈ l, e.endTime ≠ 0 := by
  cases l with
  | nil => intro e he; simp at he
  | cons x xs =>
    intro e he
    have hx : x = d := by injection hh
    rcases List.mem_cons.mp he with rfl | hm
    · rw [hx]; exact hd
    · exact ht e hm

/-- closeHead preserves tail-closedness (the tail is untouched). -/
theorem tailClosed_closeHead (now : Int) :
    ∀ l : List DowntimeEntry, tailClosed l → tailClosed (closeHead now l) := by
  intro l h
  cases l with
  | nil => trivial
  | cons d ds => exact h

/-- closeLastFrom does not affect the records of other urls. -/
theorem filter_closeLastFrom_ne (url u : String) (hne : u ≠ url) (now : Int) :
    ∀ l : List DowntimeEntry,
      (closeLastFrom url now l).filter (fun d => decide (d.url = u)) =
        l.filter (fun d => decide (d.url = u)) := by
  intro l
  induction l with
  | nil => rfl
  | cons d ds ih =>
    by_cases hd : d.url = url
    · have hdu : ¬ d.url = u := by rw [hd]; exact fun h => hne h.symm
      have hne2 : ¬ url = u := fun h => hne h.symm
      by_cases hopen : d.endTime = 0 <;>
        simp [closeLastFrom, hd, hopen, closeDowntime, List.filter_cons, hdu, hne2]
    · simp [closeLastFrom, hd, List.filter_cons, ih]

/-- On the records of its own url, closeLastFrom acts as closeHead of the filtered list. -/
theorem filter_closeLastFrom_eq (url : String) (now : Int) :
    ∀ l : List DowntimeEntry,
      (closeLastFrom url now l).filter (fun d => decide (d.url = url)) =
        closeHead now (l.filter (fun d => decide (d.url = url))) := by
  intro l
  induction l with
  | nil => rfl
  | cons d ds ih =>
    by_cases hd : d.url = url
    · by_cases hopen : d.endTime = 0 <;>
        simp [closeLastFrom, hd, hopen, List.filter_cons, closeHead, closeDowntime]
    · simp [closeLastFrom, hd, List.filter_cons, ih]

/-- Appending a fresh open record is safe when every record of that url is closed. -/
theorem downInv_append_new (dts : List DowntimeEntry) (entry : LogEntry)
    (h : downInv dts)
    (hclosed : ∀ e ∈ dts.reverse.filter (fun x => decide (x.url = entry.url)),
      e.endTime ≠ 0) :
    downInv (dts ++ [mkDowntime entry]) := by
  intro u
  rw [List.reverse_append]
  by_cases hu : u = entry.url
  · subst hu
    simp only [List.reverse_cons, List.reverse_nil, List.nil_append, List.singleton_append,
      List.filter_cons, mkDowntime, decide_eq_true_eq, if_pos rfl]
    exact hclosed
  · have hdrop : ¬ (mkDowntime entry).url = u := fun hx => hu (by simpa [mkDowntime] using hx.symm)
    simpa [List.filter_cons, hdrop] using h u

/-- handleFailure preserves the downtime invariant. -/
theorem downInv_handleFailure (um : UptimeMonitor) (entry : LogEntry)
    (h : downInv um.downtimes) : downInv (handleFailure um entry).downtimes := by
  rcases hg : getLastDowntime um.downtimes entry.url with _ | d
  · have hfe : um.downtimes.reverse.filter (fun x => decide (x.url = entry.url)) = [] := by
      refine List.filter_eq_nil_iff.mpr fun a ha => ?_
      simpa using List.find?_eq_none.mp hg a ha
    have : downInv (um.downtimes ++ [mkDowntime entry]) :=
      downInv_append_new um.downtimes entry h (by rw [hfe]; intro e he; simp at he)
    simpa [handleFailure, hg] using this
  · by_cases hcl : d.endTime = 0
    · simpa [handleFailure, hg, hcl] using h
    · have hhead : (um.downtimes.reverse.filter (fun x => decide (x.url = entry.url))).head?
          = some d := by
        rw [← find?_eq_head?_filter]; exact hg
      have hall : ∀ e ∈ um.downtimes.reverse.filter (fun x => decide (x.url = entry.url)),
          e.endTime ≠ 0 :=
        all_closed_of_head_closed _ d hhead hcl (h entry.url)
      have : downInv (um.downtimes ++ [mkDowntime entry]) :=
        downInv_append_new um.downtimes entry h hall
      simpa [handleFailure, hg, hcl] using this

/-- handleSuccess preserves the downtime invariant. -/
theorem downInv_handleSuccess (um : UptimeMonitor) (url : String) (now : Int)
    (h : downInv um.downtimes) : downInv (handleSuccess um url now).downtimes := by
  intro u
  have hrr : (handleSuccess um url now).downtimes.reverse
      = closeLastFrom url now um.downtimes.reverse := by
    simp [handleSuccess]
  rw [hrr]
  by_cases hu : u = url
  · subst hu
    rw [filter_closeLastFrom_eq]
    exact tailClosed_closeHead now _ (h u)
  · rw [filter_closeLastFrom_ne url u hu now]
    exact h u

theorem downInv_applyOutcome (um : UptimeMonitor) (op : OutcomeOp)
    (h : downInv um.downtimes) : downInv (applyOutcome um op).downtimes := by
  cases op with
  | failure entry => exact downInv_handleFailure um entry h
  | success url now => exact downInv_handleSuccess um url now h

theorem downInv_applyOutcomes :
    ∀ (ops : List OutcomeOp) (um : UptimeMonitor),
      downInv um.downtimes → downInv (applyOutcomes um ops).downtimes
  | [], _, h => h
  | op :: ops, um, h => downInv_applyOutcomes ops _ (downInv_applyOutcome um op h)

/-- A tail-closed list holds at most one open record. -/
theorem length_filter_open_le (l : List DowntimeEntry) (ht : tailClosed l) :
    (l.filter (fun d => decide (d.endTime = 0))).length ≤ 1 := by
  cases l with
  | nil => simp
  | cons d ds =>
    have hnil : ds.filter (fun d => decide (d.endTime = 0)) = [] :=
      List.filter_eq_nil_iff.mpr (by intro a ha; simpa using ht a ha)
    by_cases hd : d.endTime = 0 <;> simp [List.filter_cons, hd, hnil]

/-- openCount counted through the reversed, url-filtered slice. -/
theorem openCount_eq (dts : List DowntimeEntry) (url : String) :
    openCount dts url =
      ((dts.reverse.filter (fun d => decide (d.url = url))).filter
        (fun d => decide (d.endTime = 0))).length := by
  rw [List.filter_filter, List.filter_reverse, List.length_reverse]
  simp only [openCount, Bool.decide_and]

/-- C2: from a fresh engine, after any sequence of handleFailure and
handleSuccess calls in any order, every target has at most one downtime record
with a zero end timestamp. -/
theorem c2_at_most_one_open (ops : List OutcomeOp) (url : String) :
    openCount (applyOutcomes NewUptimeMonitor ops).downtimes url ≤ 1 := by
  have hinv : downInv (applyOutcomes NewUptimeMonitor ops).downtimes :=
    downInv_applyOutcomes ops NewUptimeMonitor (fun u => trivial)
  rw [openCount_eq]
  exact length_filter_open_le _ (hinv url)
